import Mathlib

/-!
Verification of the resale price calculator domain logic
(`src/domain/pricing.py`): the four-branch pricing formula
`calculate_sale_price`, the amortization generator
`iterate_interest_costs`, and the break-even query
`minimum_acceptable_interest`.

The pricing engine uses only field operations on its float inputs, so it
is embedded over `ℚ` (every Python float value is a rational number).
The amortization part converts an annual rate to a monthly rate through a
real 12th root, so it is embedded over `ℝ`.
-/

namespace Pricing

/-- Sale horizon: the `sale_type` argument, `"Anual"` or `"Mensal"`. -/
inductive SaleHorizon : Type
  | Anual : SaleHorizon
  | Mensal : SaleHorizon
deriving DecidableEq, Repr

/-- Profit placement: the `profit_application` argument,
`"Aplicado na compra"` (at cost) or `"Aplicado na venda"` (at sale). -/
inductive ProfitPlacement : Type
  | AtCost : ProfitPlacement
  | AtSale : ProfitPlacement
deriving DecidableEq, Repr

/-- The distinct `ValueError`s `calculate_sale_price` can raise, one
constructor per `raise` site reachable with enum-typed selectors. -/
inductive PriceError : Type
  | invalidPurchasePrice : PriceError
  | invalidTaxRate : PriceError
  | invalidProfitRate : PriceError
  | invalidInterestRate : PriceError
  | infeasibleTaxRate : PriceError
  | infeasibleSaleDenominator : PriceError
deriving DecidableEq, Repr

/-- Which errors are the spec's `InvalidInput` kind (single-field
precondition, identified field) as opposed to `InfeasiblePricing`
(combined-denominator precondition). -/
def PriceError.isInvalidInput : PriceError → Bool
  | .invalidPurchasePrice => true
  | .invalidTaxRate => true
  | .invalidProfitRate => true
  | .invalidInterestRate => true
  | .infeasibleTaxRate => false
  | .infeasibleSaleDenominator => false

/-- The constant `ANNUAL_MONTHS` from `constants.py`. -/
def ANNUAL_MONTHS : ℚ := 12

/-- The function `calculate_sale_price` from `src/domain/pricing.py`,
lines 17-138.
Returns the `(sale_price, net_profit)` pair; the third component of the
Python return value is a display string with no computational content and
is omitted.  The Python locals `net_denominator`, `net_multiplier`,
`sale_denominator` and `annual_sale_price` are inlined as the expressions
they are bound to; each `.error` mirrors one `raise ValueError` site, in
the order the Python code performs the checks. -/
def calculate_sale_price (sale_type : SaleHorizon)
    (profit_application : ProfitPlacement)
    (purchase_price tax_rate profit_rate interest_rate : ℚ) :
    Except PriceError (ℚ × ℚ) :=
  if purchase_price ≤ 0 then .error .invalidPurchasePrice
  else if ¬ (0 ≤ tax_rate ∧ tax_rate < 1) then .error .invalidTaxRate
  else if ¬ (0 ≤ profit_rate ∧ profit_rate < 1) then .error .invalidProfitRate
  else if interest_rate < 0 then .error .invalidInterestRate
  else if 1 - tax_rate ≤ 0 then .error .infeasibleTaxRate
  else
    match sale_type, profit_application with
    | .Anual, .AtCost =>
        .ok (purchase_price * (1 / (1 - tax_rate)) +
              purchase_price * profit_rate * (1 / (1 - tax_rate)),
             (purchase_price * (1 / (1 - tax_rate)) +
              purchase_price * profit_rate * (1 / (1 - tax_rate))) -
             (purchase_price * (1 / (1 - tax_rate)) +
              purchase_price * profit_rate * (1 / (1 - tax_rate))) * tax_rate -
             purchase_price)
    | .Anual, .AtSale =>
        if 1 - profit_rate - tax_rate ≤ 0 then .error .infeasibleSaleDenominator
        else
          .ok (purchase_price / (1 - profit_rate - tax_rate),
               purchase_price / (1 - profit_rate - tax_rate) -
               purchase_price / (1 - profit_rate - tax_rate) * tax_rate -
               purchase_price)
    | .Mensal, .AtCost =>
        .ok ((purchase_price * (1 / (1 - tax_rate)) +
              purchase_price * (1 / (1 - tax_rate)) * profit_rate +
              purchase_price * (1 / (1 - tax_rate)) * interest_rate) / ANNUAL_MONTHS,
             (purchase_price * (1 / (1 - tax_rate)) +
              purchase_price * (1 / (1 - tax_rate)) * profit_rate +
              purchase_price * (1 / (1 - tax_rate)) * interest_rate) -
             (purchase_price * (1 / (1 - tax_rate)) +
              purchase_price * (1 / (1 - tax_rate)) * profit_rate +
              purchase_price * (1 / (1 - tax_rate)) * interest_rate) * tax_rate -
             purchase_price * interest_rate - purchase_price)
    | .Mensal, .AtSale =>
        if 1 - profit_rate - tax_rate ≤ 0 then .error .infeasibleSaleDenominator
        else
          .ok ((purchase_price / (1 - profit_rate - tax_rate) +
                purchase_price * interest_rate * (1 / (1 - tax_rate))) / ANNUAL_MONTHS,
               (purchase_price / (1 - profit_rate - tax_rate) +
                purchase_price * interest_rate * (1 / (1 - tax_rate))) -
               (purchase_price / (1 - profit_rate - tax_rate) +
                purchase_price * interest_rate * (1 / (1 - tax_rate))) * tax_rate -
               purchase_price * interest_rate - purchase_price)

def validFields (purchase_price tax_rate profit_rate interest_rate : ℚ) :
    Prop :=
  0 < purchase_price ∧ 0 ≤ tax_rate ∧ tax_rate < 1 ∧
    0 ≤ profit_rate ∧ profit_rate < 1 ∧ 0 ≤ interest_rate

theorem ok_anual_atCost_iff (p t pr i s n : ℚ) :
    calculate_sale_price .Anual .AtCost p t pr i = .ok (s, n) ↔
      validFields p t pr i ∧
      s = p * (1 / (1 - t)) + p * pr * (1 / (1 - t)) ∧
      n = s - s * t - p := by
  constructor
  · intro h
    simp only [calculate_sale_price] at h
    split_ifs at h with h1 h2 h3 h4 h5
    simp only [Except.ok.injEq, Prod.mk.injEq] at h
    obtain ⟨hs, hn⟩ := h
    refine ⟨⟨by linarith, h2.1, h2.2, h3.1, h3.2, by linarith⟩, hs.symm, ?_⟩
    rw [hs] at hn
    exact hn.symm
  · rintro ⟨⟨hp, ht0, ht1, hpr0, hpr1, hi⟩, hs, hn⟩
    simp only [calculate_sale_price]
    rw [if_neg (by linarith), if_neg (not_not_intro ⟨ht0, ht1⟩),
      if_neg (not_not_intro ⟨hpr0, hpr1⟩), if_neg (by linarith),
      if_neg (by linarith : ¬ (1 - t ≤ 0))]
    subst hs
    subst hn
    rfl

theorem ok_anual_atSale_iff (p t pr i s n : ℚ) :
    calculate_sale_price .Anual .AtSale p t pr i = .ok (s, n) ↔
      validFields p t pr i ∧ 0 < 1 - pr - t ∧
      s = p / (1 - pr - t) ∧
      n = s - s * t - p := by
  constructor
  · intro h
    simp only [calculate_sale_price] at h
    split_ifs at h with h1 h2 h3 h4 h5 h6
    simp only [Except.ok.injEq, Prod.mk.injEq] at h
    obtain ⟨hs, hn⟩ := h
    refine ⟨⟨by linarith, h2.1, h2.2, h3.1, h3.2, by linarith⟩, by linarith,
      hs.symm, ?_⟩
    rw [hs] at hn
    exact hn.symm
  · rintro ⟨⟨hp, ht0, ht1, hpr0, hpr1, hi⟩, hd, hs, hn⟩
    simp only [calculate_sale_price]
    rw [if_neg (by linarith), if_neg (not_not_intro ⟨ht0, ht1⟩),
      if_neg (not_not_intro ⟨hpr0, hpr1⟩), if_neg (by linarith),
      if_neg (by linarith : ¬ (1 - t ≤ 0)),
      if_neg (by linarith : ¬ (1 - pr - t ≤ 0))]
    subst hs
    subst hn
    rfl

theorem ok_mensal_atCost_iff (p t pr i s n : ℚ) :
    calculate_sale_price .Mensal .AtCost p t pr i = .ok (s, n) ↔
      validFields p t pr i ∧
      s = (p * (1 / (1 - t)) + p * (1 / (1 - t)) * pr +
            p * (1 / (1 - t)) * i) / ANNUAL_MONTHS ∧
      n = (p * (1 / (1 - t)) + p * (1 / (1 - t)) * pr +
            p * (1 / (1 - t)) * i) -
          (p * (1 / (1 - t)) + p * (1 / (1 - t)) * pr +
            p * (1 / (1 - t)) * i) * t - p * i - p := by
  constructor
  · intro h
    simp only [calculate_sale_price] at h
    split_ifs at h with h1 h2 h3 h4 h5
    simp only [Except.ok.injEq, Prod.mk.injEq] at h
    obtain ⟨hs, hn⟩ := h
    exact ⟨⟨by linarith, h2.1, h2.2, h3.1, h3.2, by linarith⟩, hs.symm, hn.symm⟩
  · rintro ⟨⟨hp, ht0, ht1, hpr0, hpr1, hi⟩, hs, hn⟩
    simp only [calculate_sale_price]
    rw [if_neg (by linarith), if_neg (not_not_intro ⟨ht0, ht1⟩),
      if_neg (not_not_intro ⟨hpr0, hpr1⟩), if_neg (by linarith),
      if_neg (by linarith : ¬ (1 - t ≤ 0))]
    subst hs
    subst hn
    rfl

theorem ok_mensal_atSale_iff (p t pr i s n : ℚ) :
    calculate_sale_price .Mensal .AtSale p t pr i = .ok (s, n) ↔
      validFields p t pr i ∧ 0 < 1 - pr - t ∧
      s = (p / (1 - pr - t) + p * i * (1 / (1 - t))) / ANNUAL_MONTHS ∧
      n = (p / (1 - pr - t) + p * i * (1 / (1 - t))) -
          (p / (1 - pr - t) + p * i * (1 / (1 - t))) * t - p * i - p := by
  constructor
  · intro h
    simp only [calculate_sale_price] at h
    split_ifs at h with h1 h2 h3 h4 h5 h6
    simp only [Except.ok.injEq, Prod.mk.injEq] at h
    obtain ⟨hs, hn⟩ := h
    exact ⟨⟨by linarith, h2.1, h2.2, h3.1, h3.2, by linarith⟩, by linarith,
      hs.symm, hn.symm⟩
  · rintro ⟨⟨hp, ht0, ht1, hpr0, hpr1, hi⟩, hd, hs, hn⟩
    simp only [calculate_sale_price]
    rw [if_neg (by linarith), if_neg (not_not_intro ⟨ht0, ht1⟩),
      if_neg (not_not_intro ⟨hpr0, hpr1⟩), if_neg (by linarith),
      if_neg (by linarith : ¬ (1 - t ≤ 0)),
      if_neg (by linarith : ¬ (1 - pr - t ≤ 0))]
    subst hs
    subst hn
    rfl

instance (p t pr i : ℚ) : Decidable (validFields p t pr i) := by
  unfold validFields; infer_instance

/-- The feasibility precondition of the chosen branch: `AtSale`
placements additionally require the combined denominator
`1 - profit_rate - tax_rate` to be positive; `AtCost` placements
have no extra condition. -/
def branchFeasible (profit_application : ProfitPlacement)
    (tax_rate profit_rate : ℚ) : Prop :=
  profit_application = .AtSale → 0 < 1 - profit_rate - tax_rate

theorem ok_exists_iff (st : SaleHorizon) (pl : ProfitPlacement)
    (p t pr i : ℚ) :
    (∃ v, calculate_sale_price st pl p t pr i = .ok v) ↔
      validFields p t pr i ∧ branchFeasible pl t pr := by
  cases st <;> cases pl
  · constructor
    · rintro ⟨⟨s, n⟩, h⟩
      obtain ⟨hv, -, -⟩ := (ok_anual_atCost_iff p t pr i s n).mp h
      exact ⟨hv, fun he => nomatch he⟩
    · rintro ⟨hv, -⟩
      exact ⟨_, (ok_anual_atCost_iff p t pr i _ _).mpr ⟨hv, rfl, rfl⟩⟩
  · constructor
    · rintro ⟨⟨s, n⟩, h⟩
      obtain ⟨hv, hd, -, -⟩ := (ok_anual_atSale_iff p t pr i s n).mp h
      exact ⟨hv, fun _ => hd⟩
    · rintro ⟨hv, hf⟩
      exact ⟨_, (ok_anual_atSale_iff p t pr i _ _).mpr ⟨hv, hf rfl, rfl, rfl⟩⟩
  · constructor
    · rintro ⟨⟨s, n⟩, h⟩
      obtain ⟨hv, -, -⟩ := (ok_mensal_atCost_iff p t pr i s n).mp h
      exact ⟨hv, fun he => nomatch he⟩
    · rintro ⟨hv, -⟩
      exact ⟨_, (ok_mensal_atCost_iff p t pr i _ _).mpr ⟨hv, rfl, rfl⟩⟩
  · constructor
    · rintro ⟨⟨s, n⟩, h⟩
      obtain ⟨hv, hd, -, -⟩ := (ok_mensal_atSale_iff p t pr i s n).mp h
      exact ⟨hv, fun _ => hd⟩
    · rintro ⟨hv, hf⟩
      exact ⟨_, (ok_mensal_atSale_iff p t pr i _ _).mpr ⟨hv, hf rfl, rfl, rfl⟩⟩

theorem error_exists_iff (st : SaleHorizon) (pl : ProfitPlacement)
    (p t pr i : ℚ) :
    (∃ e, calculate_sale_price st pl p t pr i = .error e) ↔
      ¬ (validFields p t pr i ∧ branchFeasible pl t pr) := by
  rw [← ok_exists_iff]
  cases hres : calculate_sale_price st pl p t pr i <;> simp

theorem error_kind (st : SaleHorizon) (pl : ProfitPlacement)
    (p t pr i : ℚ) (e : PriceError)
    (h : calculate_sale_price st pl p t pr i = .error e) :
    e.isInvalidInput = true ↔ ¬ validFields p t pr i := by
  cases st <;> cases pl <;>
    · simp only [calculate_sale_price] at h
      split_ifs at h with h1 h2 h3 h4 h5 h6 <;>
        first
          | (cases h
             exact iff_of_true rfl fun hv => absurd hv.1 (not_lt.mpr h1))
          | (cases h
             exact iff_of_true rfl fun hv => h2 ⟨hv.2.1, hv.2.2.1⟩)
          | (cases h
             exact iff_of_true rfl fun hv => h3 ⟨hv.2.2.2.1, hv.2.2.2.2.1⟩)
          | (cases h
             exact iff_of_true rfl fun hv => absurd hv.2.2.2.2.2 (not_le.mpr h4))
          | (exfalso
             linarith [h2.2])
          | (cases h
             refine iff_of_false (by simp [PriceError.isInvalidInput])
               (not_not_intro ⟨by linarith, h2.1, h2.2, h3.1, h3.2, by linarith⟩))

/-- C1: `calculate_sale_price` raises an error iff a precondition is
violated, never a silent wrong answer: the result is an error exactly when
a single-field invariant fails (`purchase_price ≤ 0`, `tax_rate` outside
`[0,1)`, `profit_rate` outside `[0,1)`, `interest_rate < 0`) or the chosen
branch's combined denominator is nonpositive; any error is of the
`InvalidInput` kind exactly when a field invariant failed, else of the
`InfeasiblePricing` kind; for Monthly × AtSale with `profit_rate = 0.85`
and `tax_rate = 0.1743` it raises the sale-denominator
`InfeasiblePricing` error; every input satisfying all preconditions
yields a result. -/
theorem calculate_sale_price_error_iff_precondition
    (st : SaleHorizon) (pl : ProfitPlacement) (p t pr i : ℚ) :
    ((∃ e, calculate_sale_price st pl p t pr i = .error e) ↔
      ¬ (validFields p t pr i ∧ branchFeasible pl t pr))
    ∧ ((∃ v, calculate_sale_price st pl p t pr i = .ok v) ↔
      validFields p t pr i ∧ branchFeasible pl t pr)
    ∧ (∀ e, calculate_sale_price st pl p t pr i = .error e →
        (e.isInvalidInput = true ↔ ¬ validFields p t pr i))
    ∧ (0 < p → 0 ≤ i →
        calculate_sale_price .Mensal .AtSale p (1743/10000) (85/100) i =
          .error .infeasibleSaleDenominator) := by
  refine ⟨error_exists_iff st pl p t pr i, ok_exists_iff st pl p t pr i,
    fun e he => error_kind st pl p t pr i e he, fun hp hi => ?_⟩
  simp only [calculate_sale_price]
  rw [if_neg (by linarith), if_neg (not_not_intro ⟨by norm_num, by norm_num⟩),
    if_neg (not_not_intro ⟨by norm_num, by norm_num⟩), if_neg (by linarith),
    if_neg (by norm_num), if_pos (by norm_num)]

/-- Witness for C1 at the spec's infeasibility scenario
(`purchase_price = 100`, `interest_rate = 0`). -/
theorem calculate_sale_price_error_iff_precondition_witness :
    calculate_sale_price .Mensal .AtSale 100 (1743/10000) (85/100) 0 =
      .error .infeasibleSaleDenominator :=
  (calculate_sale_price_error_iff_precondition .Mensal .AtSale
    100 (1743/10000) (85/100) 0).2.2.2 (by decide) (by decide)

/-- C2: for every valid Monthly × AtSale input, `calculate_sale_price`
computes `annual_sale_price = purchase_price / (1 - profit_rate -
tax_rate) + purchase_price * interest_rate * (1 / (1 - tax_rate))` (the
interest portion grossed up by the tax-only multiplier), returns
`sale_price = annual_sale_price / 12` and `net_profit =
annual_sale_price * (1 - tax_rate) - purchase_price * interest_rate -
purchase_price`. -/
theorem mensal_atSale_formula (p t pr i : ℚ)
    (hv : validFields p t pr i) (hd : 0 < 1 - pr - t) :
    calculate_sale_price .Mensal .AtSale p t pr i =
      .ok ((p / (1 - pr - t) + p * i * (1 / (1 - t))) / 12,
           (p / (1 - pr - t) + p * i * (1 / (1 - t))) * (1 - t) -
             p * i - p) :=
  (ok_mensal_atSale_iff p t pr i _ _).mpr
    ⟨hv, hd, by rw [ANNUAL_MONTHS], by ring⟩

/-- Witness for C2 at `purchase_price = 100`, `tax_rate = 0`,
`profit_rate = 0`, `interest_rate = 0`. -/
theorem mensal_atSale_formula_witness :
    calculate_sale_price .Mensal .AtSale 100 0 0 0 =
      .ok (((100 : ℚ) / (1 - 0 - 0) + 100 * 0 * (1 / (1 - 0))) / 12,
           ((100 : ℚ) / (1 - 0 - 0) + 100 * 0 * (1 / (1 - 0))) * (1 - 0) -
             100 * 0 - 100) :=
  mensal_atSale_formula 100 0 0 0 (by decide) (by norm_num)

/-- C3: for every valid Annual × AtCost input, `calculate_sale_price`
returns `sale_price = purchase_price * (1 / (1 - tax_rate)) *
(1 + profit_rate)` and `net_profit = sale_price * (1 - tax_rate) -
purchase_price`, regardless of `interest_rate`. -/
theorem anual_atCost_formula (p t pr i i' : ℚ)
    (hv : validFields p t pr i) (hi' : 0 ≤ i') :
    calculate_sale_price .Anual .AtCost p t pr i =
      .ok (p * (1 / (1 - t)) * (1 + pr),
           p * (1 / (1 - t)) * (1 + pr) * (1 - t) - p)
    ∧ calculate_sale_price .Anual .AtCost p t pr i' =
        calculate_sale_price .Anual .AtCost p t pr i := by
  obtain ⟨hp, ht0, ht1, hpr0, hpr1, hi⟩ := hv
  have h1 := (ok_anual_atCost_iff p t pr i (p * (1 / (1 - t)) * (1 + pr))
      (p * (1 / (1 - t)) * (1 + pr) * (1 - t) - p)).mpr
    ⟨⟨hp, ht0, ht1, hpr0, hpr1, hi⟩, by ring, by ring⟩
  have h2 := (ok_anual_atCost_iff p t pr i' (p * (1 / (1 - t)) * (1 + pr))
      (p * (1 / (1 - t)) * (1 + pr) * (1 - t) - p)).mpr
    ⟨⟨hp, ht0, ht1, hpr0, hpr1, hi'⟩, by ring, by ring⟩
  exact ⟨h1, by rw [h1, h2]⟩

/-- Witness for C3 at `purchase_price = 100`, `tax_rate = 0`,
`profit_rate = 0`, interest rates `0` and `1/2`. -/
theorem anual_atCost_formula_witness :
    calculate_sale_price .Anual .AtCost 100 0 0 0 =
      .ok ((100 : ℚ) * (1 / (1 - 0)) * (1 + 0),
           (100 : ℚ) * (1 / (1 - 0)) * (1 + 0) * (1 - 0) - 100)
    ∧ calculate_sale_price .Anual .AtCost 100 0 0 (1/2) =
        calculate_sale_price .Anual .AtCost 100 0 0 0 :=
  anual_atCost_formula 100 0 0 0 (1/2) (by decide) (by norm_num)

/-- C4: holding the other inputs fixed over any pair of valid inputs,
a larger `profit_rate` gives a strictly larger `sale_price` in every
(horizon, placement) branch; a larger `interest_rate` gives a strictly
larger `sale_price` in the two Monthly branches and an identical
`sale_price` in the two Annual branches. -/
theorem sale_price_monotonicity (st : SaleHorizon) (pl : ProfitPlacement)
    (p t pr pr' i i' s n s' n' : ℚ) :
    (calculate_sale_price st pl p t pr i = .ok (s, n) →
      calculate_sale_price st pl p t pr' i = .ok (s', n') →
      pr < pr' → s < s')
    ∧ (st = .Mensal →
        calculate_sale_price st pl p t pr i = .ok (s, n) →
        calculate_sale_price st pl p t pr i' = .ok (s', n') →
        i < i' → s < s')
    ∧ (st = .Anual →
        calculate_sale_price st pl p t pr i = .ok (s, n) →
        calculate_sale_price st pl p t pr i' = .ok (s', n') →
        s = s') := by
  have hAM : (0 : ℚ) < ANNUAL_MONTHS := by norm_num [ANNUAL_MONTHS]
  cases st <;> cases pl
  · -- Anual × AtCost
    refine ⟨?_, ?_, ?_⟩
    · intro h h' hlt
      obtain ⟨⟨hp, ht0, ht1, -, -, -⟩, hs, -⟩ :=
        (ok_anual_atCost_iff p t pr i s n).mp h
      obtain ⟨-, hs', -⟩ := (ok_anual_atCost_iff p t pr' i s' n').mp h'
      have h1t : (0 : ℚ) < 1 - t := by linarith
      have hm : (0 : ℚ) < 1 / (1 - t) := by positivity
      subst hs hs'
      have key : p * pr * (1 / (1 - t)) < p * pr' * (1 / (1 - t)) :=
        mul_lt_mul_of_pos_right (mul_lt_mul_of_pos_left hlt hp) hm
      linarith
    · exact fun hst => nomatch hst
    · intro _ h h'
      obtain ⟨-, hs, -⟩ := (ok_anual_atCost_iff p t pr i s n).mp h
      obtain ⟨-, hs', -⟩ := (ok_anual_atCost_iff p t pr i' s' n').mp h'
      rw [hs, hs']
  · -- Anual × AtSale
    refine ⟨?_, ?_, ?_⟩
    · intro h h' hlt
      obtain ⟨⟨hp, -, -, -, -, -⟩, hd, hs, -⟩ :=
        (ok_anual_atSale_iff p t pr i s n).mp h
      obtain ⟨-, hd', hs', -⟩ := (ok_anual_atSale_iff p t pr' i s' n').mp h'
      subst hs hs'
      exact div_lt_div_of_pos_left hp hd' (by linarith)
    · exact fun hst => nomatch hst
    · intro _ h h'
      obtain ⟨-, -, hs, -⟩ := (ok_anual_atSale_iff p t pr i s n).mp h
      obtain ⟨-, -, hs', -⟩ := (ok_anual_atSale_iff p t pr i' s' n').mp h'
      rw [hs, hs']
  · -- Mensal × AtCost
    refine ⟨?_, ?_, ?_⟩
    · intro h h' hlt
      obtain ⟨⟨hp, ht0, ht1, -, -, -⟩, hs, -⟩ :=
        (ok_mensal_atCost_iff p t pr i s n).mp h
      obtain ⟨-, hs', -⟩ := (ok_mensal_atCost_iff p t pr' i s' n').mp h'
      have h1t : (0 : ℚ) < 1 - t := by linarith
      have hm : (0 : ℚ) < 1 / (1 - t) := by positivity
      subst hs hs'
      have key : p * (1 / (1 - t)) * pr < p * (1 / (1 - t)) * pr' :=
        mul_lt_mul_of_pos_left hlt (mul_pos hp hm)
      exact (div_lt_div_iff_of_pos_right hAM).mpr (by linarith)
    · intro _ h h' hlt
      obtain ⟨⟨hp, ht0, ht1, -, -, -⟩, hs, -⟩ :=
        (ok_mensal_atCost_iff p t pr i s n).mp h
      obtain ⟨-, hs', -⟩ := (ok_mensal_atCost_iff p t pr i' s' n').mp h'
      have h1t : (0 : ℚ) < 1 - t := by linarith
      have hm : (0 : ℚ) < 1 / (1 - t) := by positivity
      subst hs hs'
      have key : p * (1 / (1 - t)) * i < p * (1 / (1 - t)) * i' :=
        mul_lt_mul_of_pos_left hlt (mul_pos hp hm)
      exact (div_lt_div_iff_of_pos_right hAM).mpr (by linarith)
    · exact fun hst => nomatch hst
  · -- Mensal × AtSale
    refine ⟨?_, ?_, ?_⟩
    · intro h h' hlt
      obtain ⟨⟨hp, ht0, ht1, -, -, -⟩, hd, hs, -⟩ :=
        (ok_mensal_atSale_iff p t pr i s n).mp h
      obtain ⟨-, hd', hs', -⟩ := (ok_mensal_atSale_iff p t pr' i s' n').mp h'
      subst hs hs'
      have key : p / (1 - pr - t) < p / (1 - pr' - t) :=
        div_lt_div_of_pos_left hp hd' (by linarith)
      exact (div_lt_div_iff_of_pos_right hAM).mpr (by linarith)
    · intro _ h h' hlt
      obtain ⟨⟨hp, ht0, ht1, -, -, -⟩, hd, hs, -⟩ :=
        (ok_mensal_atSale_iff p t pr i s n).mp h
      obtain ⟨-, -, hs', -⟩ := (ok_mensal_atSale_iff p t pr i' s' n').mp h'
      have h1t : (0 : ℚ) < 1 - t := by linarith
      have hm : (0 : ℚ) < 1 / (1 - t) := by positivity
      subst hs hs'
      have key : p * i * (1 / (1 - t)) < p * i' * (1 / (1 - t)) :=
        mul_lt_mul_of_pos_right (mul_lt_mul_of_pos_left hlt hp) hm
      exact (div_lt_div_iff_of_pos_right hAM).mpr (by linarith)
    · exact fun hst => nomatch hst

/-- Witness for C4: Annual × AtCost at `purchase_price = 100`,
`tax_rate = 0`, profit rates `0 < 1/2`; and Monthly × AtCost at interest
rates `0 < 1/2`. -/
theorem sale_price_monotonicity_witness :
    ((100 : ℚ) < 150 ∧ (25 : ℚ) / 3 < 25 / 2) ∧
    calculate_sale_price .Anual .AtCost 100 0 0 0 = .ok (100, 0) ∧
    calculate_sale_price .Anual .AtCost 100 0 (1/2) 0 = .ok (150, 50) ∧
    calculate_sale_price .Mensal .AtCost 100 0 0 0 = .ok (25/3, 0) ∧
    calculate_sale_price .Mensal .AtCost 100 0 0 (1/2) = .ok (25/2, 0) := by
  have hA : calculate_sale_price .Anual .AtCost 100 0 0 0 = .ok (100, 0) := by
    norm_num [calculate_sale_price]
  have hA' : calculate_sale_price .Anual .AtCost 100 0 (1/2) 0 =
      .ok (150, 50) := by
    norm_num [calculate_sale_price]
  have hM : calculate_sale_price .Mensal .AtCost 100 0 0 0 =
      .ok (25/3, 0) := by
    norm_num [calculate_sale_price, ANNUAL_MONTHS]
  have hM' : calculate_sale_price .Mensal .AtCost 100 0 0 (1/2) =
      .ok (25/2, 0) := by
    norm_num [calculate_sale_price, ANNUAL_MONTHS]
  refine ⟨⟨?_, ?_⟩, hA, hA', hM, hM'⟩
  · exact (sale_price_monotonicity .Anual .AtCost 100 0 0 (1/2) 0 0
      100 0 150 50).1 hA hA' (by norm_num)
  · exact (sale_price_monotonicity .Mensal .AtCost 100 0 0 0 0 (1/2)
      (25/3) 0 (25/2) 0).2.1 rfl hM hM' (by norm_num)

/-- C7 (code evidence): with `tax_rate = 1` (and every other field valid,
matching the repository's own test `test_tax_rate_100_percent_raises_error`
at `(100, 1.0, 0.20, 0.12)`), `calculate_sale_price` raises the
field-level range error for `tax_rate` — an `InvalidInput`-kind error —
because the `[0,1)` range check precedes and subsumes the
net-denominator check; it does not raise the `InfeasiblePricing`-kind
"tax_rate makes calculation impossible" error the claim (and the test)
expect. -/
theorem tax_rate_one_gives_range_error :
    calculate_sale_price .Anual .AtCost 100 1 (20/100) (12/100) =
      .error .invalidTaxRate ∧
    PriceError.invalidTaxRate.isInvalidInput = true ∧
    PriceError.invalidTaxRate ≠ PriceError.infeasibleTaxRate := by
  refine ⟨?_, rfl, by decide⟩
  norm_num [calculate_sale_price]

/-- C8: at Annual × AtCost with `purchase_price = 100`,
`tax_rate = 0.1743`, `profit_rate = 0.20` (interest rate irrelevant),
the net multiplier is within `0.01` of `1.21113`, the sale price
(`1200000/8257`) is within `0.01` of `145.34` and the net profit is
exactly `20`, hence within `0.01` of `20.00`. -/
theorem anual_atCost_numeric_scenario :
    calculate_sale_price .Anual .AtCost 100 (1743/10000) (20/100) (12/100) =
      .ok (1200000/8257, 20) ∧
    |1 / (1 - (1743 : ℚ)/10000) - 121113/100000| ≤ 1/100 ∧
    |(1200000 : ℚ)/8257 - 14534/100| ≤ 1/100 ∧
    |(20 : ℚ) - 20| ≤ 1/100 ∧
    calculate_sale_price .Anual .AtCost 100 (1743/10000) (20/100) (99/100) =
      .ok (1200000/8257, 20) := by
  refine ⟨?_, ?_, ?_, by norm_num, ?_⟩
  · norm_num [calculate_sale_price]
  · rw [abs_le]; norm_num
  · rw [abs_le]; norm_num
  · norm_num [calculate_sale_price]

/-- C10: with `interest_rate = 0` and for each placement, the Monthly
result of `calculate_sale_price` coincides with the Annual result on the
same remaining inputs up to the 12-way split: the Monthly `sale_price`
is the Annual `sale_price` divided by 12, and the Monthly `net_profit`
equals the Annual `net_profit`. -/
theorem mensal_equals_anual_at_zero_interest (pl : ProfitPlacement)
    (p t pr sA nA sM nM : ℚ)
    (hA : calculate_sale_price .Anual pl p t pr 0 = .ok (sA, nA))
    (hM : calculate_sale_price .Mensal pl p t pr 0 = .ok (sM, nM)) :
    sM = sA / 12 ∧ nM = nA := by
  cases pl
  · obtain ⟨-, hsA, hnA⟩ := (ok_anual_atCost_iff p t pr 0 sA nA).mp hA
    obtain ⟨-, hsM, hnM⟩ := (ok_mensal_atCost_iff p t pr 0 sM nM).mp hM
    subst hsA hsM
    constructor
    · rw [ANNUAL_MONTHS]; ring
    · rw [hnA, hnM]; ring
  · obtain ⟨-, -, hsA, hnA⟩ := (ok_anual_atSale_iff p t pr 0 sA nA).mp hA
    obtain ⟨-, -, hsM, hnM⟩ := (ok_mensal_atSale_iff p t pr 0 sM nM).mp hM
    subst hsA hsM
    constructor
    · rw [ANNUAL_MONTHS]; ring
    · rw [hnA, hnM]; ring

/-- Witness for C10: Annual × AtCost versus Monthly × AtCost at
`purchase_price = 100`, `tax_rate = 0`, `profit_rate = 1/5`,
`interest_rate = 0`. -/
theorem mensal_equals_anual_at_zero_interest_witness :
    (10 : ℚ) = 120 / 12 ∧ (20 : ℚ) = 20 := by
  have hA : calculate_sale_price .Anual .AtCost 100 0 (1/5) 0 =
      .ok (120, 20) := by
    norm_num [calculate_sale_price]
  have hM : calculate_sale_price .Mensal .AtCost 100 0 (1/5) 0 =
      .ok (10, 20) := by
    norm_num [calculate_sale_price, ANNUAL_MONTHS]
  exact mensal_equals_anual_at_zero_interest .AtCost 100 0 (1/5) 120 20 10 20
    hA hM

end Pricing

namespace Amortization

/-- One yielded step of `iterate_interest_costs` (the `InterestStep`
NamedTuple, lines 9-14): month number, the balance used for that month's
interest, that month's interest, and the running total. -/
structure InterestStep : Type where
  month : ℕ
  outstanding_balance : ℝ
  monthly_interest : ℝ
  cumulative_interest : ℝ

/-- The `ValueError`s `iterate_interest_costs` can raise, one constructor
per `raise` site. -/
inductive AmortError : Type
  | invalidPurchasePrice : AmortError
  | invalidTotalMonths : AmortError
  | invalidSelicRate : AmortError
deriving DecidableEq, Repr

/-- The `for month in range(1, total_months + 1)` loop of
`iterate_interest_costs` (lines 168-179): `k` iterations remain, starting
at month number `month` with the given outstanding balance and cumulative
interest; `monthly_selic` and `monthly_payment` are loop-invariant.  Each
iteration computes `monthly_interest = outstanding_balance *
monthly_selic`, accumulates it into the cumulative total, yields the
step, and then decreases the balance by `monthly_payment`. -/
def interestLoop (monthly_selic monthly_payment : ℝ) :
    ℕ → ℕ → ℝ → ℝ → List InterestStep
  | 0, _, _, _ => []
  | k + 1, month, outstanding_balance, cumulative_interest =>
      { month := month
        outstanding_balance := outstanding_balance
        monthly_interest := outstanding_balance * monthly_selic
        cumulative_interest :=
          cumulative_interest + outstanding_balance * monthly_selic } ::
        interestLoop monthly_selic monthly_payment k (month + 1)
          (outstanding_balance - monthly_payment)
          (cumulative_interest + outstanding_balance * monthly_selic)

/-- The conversion `monthly_selic = (1 + selic_rate) ** (1/12) - 1`
(line 163), the
compounding-equivalent monthly rate; the Python float power is embedded
as the real 12th root. -/
noncomputable def monthly_selic_rate (selic_rate : ℝ) : ℝ :=
  (1 + selic_rate) ^ ((1 : ℝ) / 12) - 1

/-- The generator `iterate_interest_costs` from `src/domain/pricing.py`,
lines 141-179:
input validation, then the monthly loop starting from
`outstanding_balance = purchase_price`, `monthly_payment =
purchase_price / total_months`, `cumulative_interest = 0`, materialized
as the list of yielded `InterestStep`s.  `total_months` is the Python
`int` argument, embedded as `ℤ`. -/
noncomputable def iterate_interest_costs (purchase_price selic_rate : ℝ)
    (total_months : ℤ) : Except AmortError (List InterestStep) :=
  if purchase_price ≤ 0 then .error .invalidPurchasePrice
  else if total_months < 1 then .error .invalidTotalMonths
  else if selic_rate < 0 then .error .invalidSelicRate
  else .ok (interestLoop (monthly_selic_rate selic_rate)
      (purchase_price / (total_months : ℝ)) total_months.toNat 1
      purchase_price 0)

/-- The reduction loop of `minimum_acceptable_interest` (lines 198-200):
`last_cumulative` starts at `0.0` and is overwritten with each step's
`cumulative_interest`. -/
def last_cumulative (steps : List InterestStep) : ℝ :=
  steps.foldl (fun _ step => step.cumulative_interest) 0

/-- The query `minimum_acceptable_interest` from `src/domain/pricing.py`,
lines 182-201: consume the steps of `iterate_interest_costs`, keep the
last cumulative interest, and return `(last_cumulative / purchase_price)
* 100`; errors raised by the generator propagate.  The `lru_cache`
decorator memoizes a pure function and has no semantic content. -/
noncomputable def minimum_acceptable_interest (purchase_price selic_rate : ℝ)
    (total_months : ℤ) : Except AmortError ℝ :=
  (iterate_interest_costs purchase_price selic_rate total_months).map
    (fun steps => last_cumulative steps / purchase_price * 100)

theorem interestLoop_length (r q : ℝ) (k : ℕ) :
    ∀ (m : ℕ) (b c : ℝ), (interestLoop r q k m b c).length = k := by
  induction k with
  | zero => intro m b c; rfl
  | succ k ih =>
    intro m b c
    rw [interestLoop]
    simp [ih]

theorem interestLoop_get? (r q : ℝ) (k : ℕ) :
    ∀ (i m : ℕ) (b c : ℝ), i < k →
      (interestLoop r q k m b c).get? i = some
        { month := m + i
          outstanding_balance := b - i * q
          monthly_interest := (b - i * q) * r
          cumulative_interest :=
            c + (∑ j ∈ Finset.range (i + 1), (b - j * q)) * r } := by
  induction k with
  | zero =>
    intro i m b c h
    exact absurd h (Nat.not_lt_zero i)
  | succ k ih =>
    intro i m b c h
    cases i with
    | zero =>
      simp [interestLoop, Finset.sum_range_one]
    | succ j =>
      rw [interestLoop, List.get?_cons_succ,
        ih j (m + 1) (b - q) (c + b * r) (by omega)]
      simp only [Option.some.injEq, InterestStep.mk.injEq]
      refine ⟨by omega, by push_cast; ring, by push_cast; ring, ?_⟩
      have hsum : ∀ x ∈ Finset.range (j + 1),
          b - ((x + 1 : ℕ) : ℝ) * q = (b - q) - (x : ℝ) * q := by
        intro x _
        push_cast
        ring
      have hstep : (∑ t ∈ Finset.range (j + 1 + 1), (b - (t : ℝ) * q)) =
          b + ∑ x ∈ Finset.range (j + 1), ((b - q) - (x : ℝ) * q) := by
        rw [Finset.sum_range_succ', Finset.sum_congr rfl hsum]
        push_cast
        ring
      rw [hstep]
      ring

theorem interestLoop_get (r q : ℝ) (k i m : ℕ) (b c : ℝ)
    (h : i < (interestLoop r q k m b c).length) :
    (interestLoop r q k m b c).get ⟨i, h⟩ =
      { month := m + i
        outstanding_balance := b - i * q
        monthly_interest := (b - i * q) * r
        cumulative_interest :=
          c + (∑ j ∈ Finset.range (i + 1), (b - j * q)) * r } := by
  have hk : i < k := by rwa [interestLoop_length] at h
  have h2 := interestLoop_get? r q k i m b c hk
  rw [List.get?_eq_get h] at h2
  exact Option.some.inj h2

theorem interestLoop_zero_rate (q : ℝ) (k : ℕ) :
    ∀ (m : ℕ) (b : ℝ) (s : InterestStep),
      s ∈ interestLoop 0 q k m b 0 →
        s.monthly_interest = 0 ∧ s.cumulative_interest = 0 := by
  induction k with
  | zero => intro m b s hs; simp [interestLoop] at hs
  | succ k ih =>
    intro m b s hs
    rw [interestLoop] at hs
    simp only [mul_zero, add_zero] at hs
    rcases List.mem_cons.mp hs with rfl | hs
    · exact ⟨rfl, rfl⟩
    · exact ih (m + 1) (b - q) s hs

theorem iterate_ok (p r : ℝ) (n : ℤ) (hp : 0 < p) (hr : 0 ≤ r)
    (hn : 1 ≤ n) :
    iterate_interest_costs p r n =
      .ok (interestLoop (monthly_selic_rate r) (p / (n : ℝ)) n.toNat 1
        p 0) := by
  unfold iterate_interest_costs
  rw [if_neg (by linarith), if_neg (by omega), if_neg (by linarith)]

theorem monthly_selic_rate_nonneg (r : ℝ) (hr : 0 ≤ r) :
    0 ≤ monthly_selic_rate r := by
  unfold monthly_selic_rate
  have h1 : (1 : ℝ) ≤ (1 + r) ^ ((1 : ℝ) / 12) :=
    Real.one_le_rpow (by linarith) (by norm_num)
  linarith

theorem monthly_selic_rate_zero : monthly_selic_rate 0 = 0 := by
  unfold monthly_selic_rate
  rw [add_zero, Real.one_rpow]
  ring

theorem foldl_cumulative (l : List InterestStep) (hne : l ≠ []) :
    ∀ x : ℝ, l.foldl (fun _ step => step.cumulative_interest) x =
      (l.getLast hne).cumulative_interest := by
  induction l with
  | nil => exact absurd rfl hne
  | cons a l ih =>
    intro x
    cases l with
    | nil => rfl
    | cons b l' =>
      rw [List.foldl_cons, ih (by simp)]
      congr 1

theorem interestLoop_zero_last_cumulative (q : ℝ) (k m : ℕ) (b : ℝ) :
    last_cumulative (interestLoop 0 q k m b 0) = 0 := by
  by_cases hne : interestLoop 0 q k m b 0 = []
  · rw [hne]; rfl
  · rw [last_cumulative, foldl_cumulative _ hne 0]
    exact (interestLoop_zero_rate q k m b _ (List.getLast_mem hne)).2

/-- Pointwise scaling of a step by a factor `a`: the shape in which a
change of `purchase_price` acts on the generated sequence. -/
def scaleStep (a : ℝ) (s : InterestStep) : InterestStep :=
  { month := s.month
    outstanding_balance := a * s.outstanding_balance
    monthly_interest := a * s.monthly_interest
    cumulative_interest := a * s.cumulative_interest }

theorem interestLoop_scale (r a q : ℝ) (k : ℕ) :
    ∀ (m : ℕ) (b c : ℝ),
      interestLoop r (a * q) k m (a * b) (a * c) =
        (interestLoop r q k m b c).map (scaleStep a) := by
  induction k with
  | zero => intro m b c; rfl
  | succ k ih =>
    intro m b c
    rw [interestLoop, interestLoop, List.map_cons]
    congr 1
    · simp only [scaleStep, InterestStep.mk.injEq]
      refine ⟨trivial, trivial, by ring, by ring⟩
    · have e1 : a * b - a * q = a * (b - q) := by ring
      have e2 : a * c + a * b * r = a * (c + b * r) := by ring
      rw [e1, e2]
      exact ih (m + 1) (b - q) (c + b * r)

theorem foldl_cumulative_map_scale (a : ℝ) (l : List InterestStep) :
    ∀ x : ℝ,
      (l.map (scaleStep a)).foldl
        (fun _ step => step.cumulative_interest) (a * x) =
      a * l.foldl (fun _ step => step.cumulative_interest) x := by
  induction l with
  | nil => intro x; rfl
  | cons s l ih =>
    intro x
    rw [List.map_cons, List.foldl_cons, List.foldl_cons]
    exact ih s.cumulative_interest

theorem last_cumulative_map_scale (a : ℝ) (l : List InterestStep) :
    last_cumulative (l.map (scaleStep a)) = a * last_cumulative l := by
  have h0 : (0 : ℝ) = a * 0 := by ring
  rw [last_cumulative, last_cumulative]
  nth_rewrite 1 [h0]
  rw [foldl_cumulative_map_scale]

theorem minimum_acceptable_interest_eq_unit (p r : ℝ) (n : ℤ)
    (hp : 0 < p) (hr : 0 ≤ r) (hn : 1 ≤ n) :
    minimum_acceptable_interest p r n =
      .ok (last_cumulative (interestLoop (monthly_selic_rate r)
        (1 / (n : ℝ)) n.toNat 1 1 0) * 100) := by
  rw [minimum_acceptable_interest, iterate_ok p r n hp hr hn]
  simp only [Except.map]
  have hloop : interestLoop (monthly_selic_rate r) (p / (n : ℝ)) n.toNat 1
      p 0 =
      (interestLoop (monthly_selic_rate r) (1 / (n : ℝ)) n.toNat 1
        1 0).map (scaleStep p) := by
    have e1 : p / (n : ℝ) = p * (1 / (n : ℝ)) := by ring
    have e2 : p = p * 1 := by ring
    have e3 : (0 : ℝ) = p * 0 := by ring
    rw [e1]
    nth_rewrite 2 [e2]
    nth_rewrite 1 [e3]
    exact interestLoop_scale (monthly_selic_rate r) p (1 / (n : ℝ))
      n.toNat 1 1 0
  rw [hloop, last_cumulative_map_scale]
  congr 1
  rw [mul_comm p _, mul_div_assoc, div_self (ne_of_gt hp), mul_one]

/-- C5: for every valid amortization input, `iterate_interest_costs`
yields exactly `total_months` steps; `cumulative_interest` is
non-decreasing along the sequence; the balance at the 1-based step `m`
is `purchase_price - (m-1) * purchase_price / total_months` (the
pre-payment balance), so the last step's balance is
`purchase_price / total_months`, not zero; and with a zero annual rate
every `monthly_interest` and `cumulative_interest` is exactly 0. -/
theorem iterate_interest_costs_invariants (p r : ℝ) (n : ℤ)
    (hp : 0 < p) (hr : 0 ≤ r) (hn : 1 ≤ n) :
    ∃ steps, iterate_interest_costs p r n = .ok steps ∧
      (steps.length : ℤ) = n ∧
      (∀ i j (hi : i < steps.length) (hj : j < steps.length), i ≤ j →
        (steps.get ⟨i, hi⟩).cumulative_interest ≤
          (steps.get ⟨j, hj⟩).cumulative_interest) ∧
      (∀ i (hi : i < steps.length),
        (steps.get ⟨i, hi⟩).outstanding_balance =
          p - i * (p / (n : ℝ))) ∧
      (∀ hne : steps ≠ [],
        (steps.getLast hne).outstanding_balance = p / (n : ℝ)) ∧
      (r = 0 → ∀ s ∈ steps, s.monthly_interest = 0 ∧
        s.cumulative_interest = 0) := by
  have hN : (n.toNat : ℤ) = n := Int.toNat_of_nonneg (by omega)
  have hN1 : 1 ≤ n.toNat := by omega
  have hNR : ((n.toNat : ℕ) : ℝ) = (n : ℝ) := by exact_mod_cast hN
  have hnR : (1 : ℝ) ≤ (n : ℝ) := by exact_mod_cast hn
  have hq : 0 < p / (n : ℝ) := div_pos hp (by linarith)
  have hρ := monthly_selic_rate_nonneg r hr
  have hlen := interestLoop_length (monthly_selic_rate r) (p / (n : ℝ))
    n.toNat 1 p 0
  refine ⟨_, iterate_ok p r n hp hr hn, ?_, ?_, ?_, ?_, ?_⟩
  · rw [hlen]; exact hN
  · intro i j hi hj hij
    have hjN : j < n.toNat := by rwa [hlen] at hj
    rw [interestLoop_get (monthly_selic_rate r) (p / (n : ℝ)) n.toNat i 1
        p 0 hi,
      interestLoop_get (monthly_selic_rate r) (p / (n : ℝ)) n.toNat j 1
        p 0 hj]
    simp only
    have hterm : ∀ t ∈ Finset.range (j + 1),
        0 ≤ p - (t : ℝ) * (p / (n : ℝ)) := by
      intro t ht
      have ht1 : t + 1 ≤ n.toNat := by
        have := Finset.mem_range.mp ht
        omega
      have htR : (t : ℝ) + 1 ≤ (n : ℝ) := by
        rw [← hNR]
        exact_mod_cast ht1
      have h1 : (t : ℝ) * (p / (n : ℝ)) ≤
          ((n : ℝ) - 1) * (p / (n : ℝ)) :=
        mul_le_mul_of_nonneg_right (by linarith) hq.le
      have h2 : ((n : ℝ) - 1) * (p / (n : ℝ)) = p - p / (n : ℝ) := by
        field_simp
        ring
      linarith
    have hsum : (∑ t ∈ Finset.range (i + 1), (p - (t : ℝ) * (p / (n : ℝ))))
        ≤ ∑ t ∈ Finset.range (j + 1), (p - (t : ℝ) * (p / (n : ℝ))) :=
      Finset.sum_le_sum_of_subset_of_nonneg
        (Finset.range_subset.mpr (by omega))
        (fun t ht _ => hterm t ht)
    have := mul_le_mul_of_nonneg_right hsum hρ
    linarith
  · intro i hi
    rw [interestLoop_get (monthly_selic_rate r) (p / (n : ℝ)) n.toNat i 1
        p 0 hi]
  · intro hne
    rw [List.getLast_eq_get]
    rw [interestLoop_get]
    simp only
    rw [hlen]
    rw [Nat.cast_sub hN1, Nat.cast_one, hNR]
    have hne0 : (n : ℝ) ≠ 0 := ne_of_gt (by linarith)
    field_simp
    ring
  · intro hr0
    subst hr0
    rw [monthly_selic_rate_zero]
    exact fun s hs =>
      interestLoop_zero_rate (p / (n : ℝ)) n.toNat 1 p s hs

/-- Witness for C5 at `purchase_price = 1`, `annual_rate = 0`,
`total_months = 1`. -/
theorem iterate_interest_costs_invariants_witness :
    ∃ steps, iterate_interest_costs 1 0 1 = .ok steps ∧
      (steps.length : ℤ) = 1 := by
  obtain ⟨steps, h1, h2, -, -, -, -⟩ :=
    iterate_interest_costs_invariants 1 0 1 one_pos (le_refl 0) (le_refl 1)
  exact ⟨steps, h1, h2⟩

/-- C6: for every valid input, `minimum_acceptable_interest` returns
exactly the final `cumulative_interest` of the `iterate_interest_costs`
sequence divided by `purchase_price`, times 100; it returns 0 when the
annual rate is 0; and repeated calls with identical inputs return the
same value (the embedded function is pure, so the `lru_cache`
memoization is semantically transparent). -/
theorem minimum_acceptable_interest_contract (p r : ℝ) (n : ℤ)
    (hp : 0 < p) (hr : 0 ≤ r) (hn : 1 ≤ n) :
    ∃ (steps : List InterestStep) (hne : steps ≠ []),
      iterate_interest_costs p r n = .ok steps ∧
      minimum_acceptable_interest p r n =
        .ok ((steps.getLast hne).cumulative_interest / p * 100) ∧
      (r = 0 → minimum_acceptable_interest p r n = .ok 0) ∧
      minimum_acceptable_interest p r n =
        minimum_acceptable_interest p r n := by
  have hok := iterate_ok p r n hp hr hn
  have hlen := interestLoop_length (monthly_selic_rate r) (p / (n : ℝ))
    n.toNat 1 p 0
  have hne : interestLoop (monthly_selic_rate r) (p / (n : ℝ)) n.toNat 1
      p 0 ≠ [] := by
    intro hempty
    rw [hempty] at hlen
    simp at hlen
    omega
  refine ⟨_, hne, hok, ?_, ?_, rfl⟩
  · rw [minimum_acceptable_interest, hok]
    simp only [Except.map]
    rw [last_cumulative, foldl_cumulative _ hne 0]
  · intro hr0
    subst hr0
    rw [minimum_acceptable_interest, hok]
    simp only [Except.map]
    rw [monthly_selic_rate_zero, interestLoop_zero_last_cumulative]
    norm_num

/-- Witness for C6 at `purchase_price = 1`, `annual_rate = 0`,
`total_months = 1`. -/
theorem minimum_acceptable_interest_contract_witness :
    ∃ (steps : List InterestStep) (hne : steps ≠ []),
      iterate_interest_costs 1 0 1 = .ok steps ∧
      minimum_acceptable_interest 1 0 1 =
        .ok ((steps.getLast hne).cumulative_interest / 1 * 100) := by
  obtain ⟨steps, hne, h1, h2, -, -⟩ :=
    minimum_acceptable_interest_contract 1 0 1 one_pos (le_refl 0)
      (le_refl 1)
  exact ⟨steps, hne, h1, h2⟩

/-- C9: `minimum_acceptable_interest` is independent of
`purchase_price`: the cumulative interest scales linearly with the
price and is then divided by it, so two positive prices give the same
percentage for the same rate and horizon. -/
theorem minimum_acceptable_interest_price_independent (p1 p2 r : ℝ)
    (n : ℤ) (hp1 : 0 < p1) (hp2 : 0 < p2) (hr : 0 ≤ r) (hn : 1 ≤ n) :
    minimum_acceptable_interest p1 r n =
      minimum_acceptable_interest p2 r n := by
  rw [minimum_acceptable_interest_eq_unit p1 r n hp1 hr hn,
    minimum_acceptable_interest_eq_unit p2 r n hp2 hr hn]

/-- Witness for C9 at prices `1` and `2`, `annual_rate = 0`,
`total_months = 12`. -/
theorem minimum_acceptable_interest_price_independent_witness :
    minimum_acceptable_interest 1 0 12 =
      minimum_acceptable_interest 2 0 12 :=
  minimum_acceptable_interest_price_independent 1 2 0 12 one_pos two_pos
    (le_refl 0) (by decide)

end Amortization
